import Mathlib

/-!
Verification development for the GridPath dynamic-composition core:
the subtype-module loader, the set-join aggregator, the PRM cost-group
type lookup and dispatch, and the results-import setup
(`gridpath/auxiliary/auxiliary.py` and
`gridpath/project/reliability/prm/group_costs.py`).

Python values are modelled shallowly: a Pyomo model's named sets
(`getattr(mod, s)`) become a function from set names to finite sets of
(entity, period) pairs; Python dictionaries become association lists with
insert-or-overwrite semantics; a raised exception becomes `Except.error`;
messages printed to stdout are collected in a list.
-/

namespace GridPath

/-- An element of a contributed index set: an (entity, period) pair. -/
abbrev Element := String × Nat

/-! ## Set-join aggregator: `join_sets` (gridpath/auxiliary/auxiliary.py, lines 147-165) -/

/-- Embedding of `join_sets(mod, set_list)`.  `getattr(mod, s)` is modelled as
`mod s`.  The source returns `[]` for an empty list (modelled as the empty
set), the single named set itself for a one-element list, and otherwise a
Python `set` built by adding every element of every named set, modelled as a
`Finset` fold of unions. -/
def join_sets (mod : String → Finset Element) : List String → Finset Element
  | [] => ∅
  | [s] => mod s
  | set_list => set_list.foldl (fun acc s => acc ∪ mod s) ∅

/-- The union of all named sets in a list, as computed by the loop in the
final branch of `join_sets`. -/
def unionAll (mod : String → Finset Element) (l : List String) : Finset Element :=
  l.foldl (fun acc s => acc ∪ mod s) ∅

theorem foldl_union_init (mod : String → Finset Element) (l : List String)
    (init : Finset Element) :
    l.foldl (fun acc s => acc ∪ mod s) init = init ∪ unionAll mod l := by
  induction l generalizing init with
  | nil => simp [unionAll]
  | cons a t ih =>
      simp only [unionAll, List.foldl_cons]
      rw [ih (init ∪ mod a), ih (∅ ∪ mod a)]
      simp [Finset.union_assoc]

theorem unionAll_nil (mod : String → Finset Element) : unionAll mod [] = ∅ := rfl

theorem unionAll_cons (mod : String → Finset Element) (a : String) (t : List String) :
    unionAll mod (a :: t) = mod a ∪ unionAll mod t := by
  simp only [unionAll, List.foldl_cons]
  rw [foldl_union_init]
  simp [unionAll]

theorem mem_unionAll (mod : String → Finset Element) (l : List String) (x : Element) :
    x ∈ unionAll mod l ↔ ∃ s ∈ l, x ∈ mod s := by
  induction l with
  | nil => simp [unionAll]
  | cons a t ih => simp [unionAll_cons, ih]

theorem join_sets_eq_unionAll (mod : String → Finset Element) (l : List String) :
    join_sets mod l = unionAll mod l := by
  match l with
  | [] => rfl
  | [s] => simp [join_sets, unionAll]
  | a :: b :: t => rfl

/-- A concrete model in which the pair ("gas_plant", 2020) is registered under
the two contributing sets ELCC_A and ELCC_B. -/
def modOverlap : String → Finset Element := fun s =>
  if s = "ELCC_A" then {("gas_plant", 2020), ("coal_plant", 2020)}
  else if s = "ELCC_B" then {("gas_plant", 2020)}
  else ∅

/-- C1 counterexample: the pair ("gas_plant", 2020) appears in both
contributing sets, yet `join_sets` returns the joined (union) set and raises
no integrity error: the embedding of the source is a total function with no
error case, and here it produces a joined set on overlapping input. -/
theorem join_sets_overlap_returns_joined_set :
    ("gas_plant", 2020) ∈ modOverlap "ELCC_A" ∧
    ("gas_plant", 2020) ∈ modOverlap "ELCC_B" ∧
    join_sets modOverlap ["ELCC_A", "ELCC_B"] =
      modOverlap "ELCC_A" ∪ modOverlap "ELCC_B" := by
  refine ⟨by decide, by decide, ?_⟩
  rw [join_sets_eq_unionAll]
  decide

/-- C1 (amended): `join_sets` performs no disjointness check: for every list
of contributing sets it returns exactly their union, with any (entity, period)
pair registered under several types silently absorbed; no error is ever
raised (the function is total). -/
theorem join_sets_mem_iff (mod : String → Finset Element) (l : List String)
    (x : Element) : x ∈ join_sets mod l ↔ ∃ s ∈ l, x ∈ mod s := by
  rw [join_sets_eq_unionAll]
  exact mem_unionAll mod l x

theorem card_unionAll_of_pairwise_disjoint (mod : String → Finset Element)
    (l : List String) (h : l.Pairwise fun s t => Disjoint (mod s) (mod t)) :
    (unionAll mod l).card = (l.map fun s => (mod s).card).sum := by
  induction l with
  | nil => simp [unionAll]
  | cons a t ih =>
      rcases List.pairwise_cons.mp h with ⟨ha, ht⟩
      have hdisj : Disjoint (mod a) (unionAll mod t) := by
        rw [Finset.disjoint_left]
        intro x hxa hxt
        rcases (mem_unionAll mod t x).mp hxt with ⟨s, hs, hxs⟩
        exact (Finset.disjoint_left.mp (ha s hs)) hxa hxs
      rw [unionAll_cons, Finset.card_union_of_disjoint hdisj, List.map_cons,
        List.sum_cons, ih ht]

/-- C4: for pairwise-disjoint contributing sets, the joined set's cardinality
equals the sum of the cardinalities of the contributing sets. -/
theorem join_sets_card_of_pairwise_disjoint (mod : String → Finset Element)
    (l : List String) (h : l.Pairwise fun s t => Disjoint (mod s) (mod t)) :
    (join_sets mod l).card = (l.map fun s => (mod s).card).sum := by
  rw [join_sets_eq_unionAll]
  exact card_unionAll_of_pairwise_disjoint mod l h

/-- A concrete model partitioning three (entity, period) pairs into two
disjoint type buckets. -/
def modDisjoint : String → Finset Element := fun s =>
  if s = "SPEC_CAP" then {("gen_a", 2020), ("gen_a", 2030)}
  else if s = "RETIRE_CAP" then {("gen_b", 2020)}
  else ∅

/-- C4 witness: evaluating the disjoint-union cardinality theorem on a
concrete two-bucket partition: the joined set has 2 + 1 = 3 elements. -/
theorem join_sets_card_witness :
    (join_sets modDisjoint ["SPEC_CAP", "RETIRE_CAP"]).card =
      (["SPEC_CAP", "RETIRE_CAP"].map fun s => (modDisjoint s).card).sum ∧
    (join_sets modDisjoint ["SPEC_CAP", "RETIRE_CAP"]).card = 3 := by
  have h := join_sets_card_of_pairwise_disjoint modDisjoint
    ["SPEC_CAP", "RETIRE_CAP"] (by simp [List.pairwise_cons]; decide)
  refine ⟨h, ?_⟩
  rw [h]
  decide

/-- C9: joining an aggregation key with zero contributing sets yields the
empty set: `join_sets` on the empty list returns the empty collection (the
source returns the empty literal `[]`), not an error. -/
theorem join_sets_nil_eq_empty (mod : String → Finset Element) :
    join_sets mod [] = ∅ := rfl

/-! ## Module loader: `load_subtype_modules` (gridpath/auxiliary/auxiliary.py, lines 17-53) -/

/-- A Python module as seen by the loader: its printable name and the names of
the attributes it defines (`hasattr(imp_m, a)` is `a ∈ attrs`). -/
structure PyModule where
  name : String
  attrs : List String
deriving DecidableEq

/-- Assignment `d[k] = v` on a Python dict modelled as an association list:
overwrite in place when the key is present, append otherwise. -/
def dict_insert (d : List (String × PyModule)) (k : String) (v : PyModule) :
    List (String × PyModule) :=
  if (d.map Prod.fst).contains k then
    d.map fun p => if p.1 = k then (k, v) else p
  else d ++ [(k, v)]

/-- The loop of `load_subtype_modules` over `required_subtype_modules`.
`pkg m` models `import_module("." + m, package=package)`: `none` is an
`ImportError`, caught and turned into a printed message (accumulated in
`prints`) before continuing.  On success the module is stored in the dict and
each required attribute is checked, the first missing one raising an
uncaught exception (`Except.error`) that aborts the whole call. -/
def load_go (pkg : String → Option PyModule) (attrs : List String) :
    List String → List String → List (String × PyModule) →
      Except String (List String × List (String × PyModule))
  | [], prints, dict => .ok (prints, dict)
  | m :: rest, prints, dict =>
    match pkg m with
    | none =>
        load_go pkg attrs rest
          (prints ++ ["ERROR! Subtype module " ++ m ++ " not found."]) dict
    | some md =>
        match attrs.find? (fun a => ! md.attrs.contains a) with
        | some a =>
            .error ("ERROR! No " ++ a ++ " function in subtype module "
              ++ md.name ++ ".")
        | none => load_go pkg attrs rest prints (dict_insert dict m md)

/-- Embedding of `load_subtype_modules(required_subtype_modules, package,
required_attributes)`.  The result pairs the messages printed to stdout with
the returned dictionary of imported modules; a raised exception is
`Except.error`. -/
def load_subtype_modules (required_subtype_modules : List String)
    (pkg : String → Option PyModule) (required_attributes : List String) :
    Except String (List String × List (String × PyModule)) :=
  load_go pkg required_attributes required_subtype_modules [] []

/-- Embedding of `load_gen_storage_capacity_type_modules`: the capacity-type
capability contract is the fixed attribute list below; `pkg` models the
`gridpath.project.capacity.capacity_types` package contents. -/
def load_gen_storage_capacity_type_modules (required_capacity_modules : List String)
    (pkg : String → Option PyModule) :
    Except String (List String × List (String × PyModule)) :=
  load_subtype_modules required_capacity_modules pkg
    ["capacity_rule", "capacity_cost_rule"]

theorem contains_eq_true_iff_mem (l : List String) (a : String) :
    l.contains a = true ↔ a ∈ l := List.elem_iff

theorem dict_insert_map_fst (d : List (String × PyModule)) (k : String)
    (v : PyModule) :
    (dict_insert d k v).map Prod.fst =
      if k ∈ d.map Prod.fst then d.map Prod.fst else d.map Prod.fst ++ [k] := by
  by_cases hk : k ∈ d.map Prod.fst
  · have hc : (d.map Prod.fst).contains k = true :=
      (contains_eq_true_iff_mem _ _).mpr hk
    simp only [dict_insert, hc, if_true, hk, List.map_map]
    refine List.map_congr_left ?_
    intro p _
    by_cases hp : p.1 = k
    · simp [hp, Function.comp]
    · simp [hp, Function.comp]
  · have hc : (d.map Prod.fst).contains k = false := by
      cases hcc : (d.map Prod.fst).contains k
      · rfl
      · exact absurd ((contains_eq_true_iff_mem _ _).mp hcc) hk
    simp [dict_insert, hc, hk]

theorem dict_insert_mem_fst (d : List (String × PyModule)) (k : String)
    (v : PyModule) (x : String) :
    x ∈ (dict_insert d k v).map Prod.fst ↔ x ∈ d.map Prod.fst ∨ x = k := by
  rw [dict_insert_map_fst]
  by_cases hk : k ∈ d.map Prod.fst
  · simp only [hk, if_true]
    constructor
    · exact fun h => Or.inl h
    · rintro (h | rfl)
      · exact h
      · exact hk
  · simp [hk]

theorem dict_insert_nodup_fst (d : List (String × PyModule)) (k : String)
    (v : PyModule) (h : (d.map Prod.fst).Nodup) :
    ((dict_insert d k v).map Prod.fst).Nodup := by
  rw [dict_insert_map_fst]
  by_cases hk : k ∈ d.map Prod.fst
  · simpa [hk] using h
  · simp only [hk, if_false]
    rw [List.nodup_append]
    refine ⟨h, List.nodup_singleton k, ?_⟩
    intro a ha hak
    rw [List.mem_singleton] at hak
    exact hk (hak ▸ ha)

theorem dict_insert_mem (d : List (String × PyModule)) (k : String)
    (v : PyModule) (p : String × PyModule) (hp : p ∈ dict_insert d k v) :
    (p ∈ d ∧ p.1 ≠ k) ∨ p = (k, v) := by
  unfold dict_insert at hp
  by_cases hc : (d.map Prod.fst).contains k
  · rw [if_pos hc] at hp
    rcases List.mem_map.mp hp with ⟨q, hq, hqe⟩
    by_cases hqk : q.1 = k
    · right
      rw [if_pos hqk] at hqe
      exact hqe.symm
    · left
      rw [if_neg hqk] at hqe
      exact ⟨hqe ▸ hq, hqe ▸ hqk⟩
  · rw [if_neg hc] at hp
    rcases List.mem_append.mp hp with hq | hq
    · by_cases hqk : p.1 = k
      · exact absurd ((contains_eq_true_iff_mem _ _).mpr
          (hqk ▸ List.mem_map_of_mem Prod.fst hq)) hc
      · exact Or.inl ⟨hq, hqk⟩
    · right
      simpa using hq

theorem load_go_prints_mono (pkg : String → Option PyModule) (attrs : List String)
    (req : List String) :
    ∀ (prints0 : List String) (dict0 : List (String × PyModule))
      (prints : List String) (dict : List (String × PyModule)),
      load_go pkg attrs req prints0 dict0 = .ok (prints, dict) →
      ∀ x ∈ prints0, x ∈ prints := by
  induction req with
  | nil =>
      intro prints0 dict0 prints dict h x hx
      simp only [load_go, Except.ok.injEq, Prod.mk.injEq] at h
      exact h.1 ▸ hx
  | cons m rest ih =>
      intro prints0 dict0 prints dict h x hx
      cases hpm : pkg m with
      | none =>
          rw [load_go, hpm] at h
          exact ih _ _ _ _ h x (List.mem_append_left _ hx)
      | some md =>
          cases hfa : attrs.find? (fun a => ! md.attrs.contains a) with
          | some a =>
              rw [load_go, hpm] at h
              simp only [hfa] at h
              exact absurd h (by simp)
          | none =>
              rw [load_go, hpm] at h
              simp only [hfa] at h
              exact ih _ _ _ _ h x hx

theorem load_go_resolved (pkg : String → Option PyModule) (attrs : List String)
    (req : List String) :
    ∀ (prints0 : List String) (dict0 : List (String × PyModule))
      (prints : List String) (dict : List (String × PyModule)),
      load_go pkg attrs req prints0 dict0 = .ok (prints, dict) →
      ∀ p ∈ dict, p ∈ dict0 ∨ pkg p.1 = some p.2 := by
  induction req with
  | nil =>
      intro prints0 dict0 prints dict h p hp
      simp only [load_go, Except.ok.injEq, Prod.mk.injEq] at h
      exact Or.inl (h.2 ▸ hp)
  | cons m rest ih =>
      intro prints0 dict0 prints dict h p hp
      cases hpm : pkg m with
      | none =>
          rw [load_go, hpm] at h
          exact ih _ _ _ _ h p hp
      | some md =>
          cases hfa : attrs.find? (fun a => ! md.attrs.contains a) with
          | some a =>
              rw [load_go, hpm] at h
              simp only [hfa] at h
              exact absurd h (by simp)
          | none =>
              rw [load_go, hpm] at h
              simp only [hfa] at h
              rcases ih _ _ _ _ h p hp with hin | hres
              · rcases dict_insert_mem dict0 m md p hin with ⟨hmem, _⟩ | rfl
                · exact Or.inl hmem
                · exact Or.inr hpm
              · exact Or.inr hres

theorem load_go_missing_print (pkg : String → Option PyModule)
    (attrs : List String) (req : List String) :
    ∀ (prints0 : List String) (dict0 : List (String × PyModule))
      (prints : List String) (dict : List (String × PyModule)) (m : String),
      pkg m = none → m ∈ req →
      load_go pkg attrs req prints0 dict0 = .ok (prints, dict) →
      ("ERROR! Subtype module " ++ m ++ " not found.") ∈ prints := by
  induction req with
  | nil => intro _ _ _ _ m _ hm _; exact absurd hm (List.not_mem_nil m)
  | cons r rest ih =>
      intro prints0 dict0 prints dict m hpm hm h
      rcases List.mem_cons.mp hm with rfl | hmr
      · rw [load_go, hpm] at h
        exact load_go_prints_mono pkg attrs rest _ _ _ _ h _
          (List.mem_append_right _ (List.mem_singleton_self _))
      · cases hpr : pkg r with
        | none =>
            rw [load_go, hpr] at h
            exact ih _ _ _ _ m hpm hmr h
        | some md =>
            cases hfa : attrs.find? (fun a => ! md.attrs.contains a) with
            | some a =>
                rw [load_go, hpr] at h
                simp only [hfa] at h
                exact absurd h (by simp)
            | none =>
                rw [load_go, hpr] at h
                simp only [hfa] at h
                exact ih _ _ _ _ m hpm hmr h

/-- A package in which no subtype-module name resolves (every import raises
`ImportError`). -/
def pkgNone : String → Option PyModule := fun _ => none

/-- C2 counterexample: a required type name that does not resolve does not
make the load fail: `load_subtype_modules` returns `.ok` with a mapping that
omits the type, merely accumulating a printed message (which names the type
but not the category). -/
theorem load_subtype_modules_missing_type_still_ok :
    load_subtype_modules ["gen_unknown_type"] pkgNone ["capacity_rule"] =
      .ok (["ERROR! Subtype module gen_unknown_type not found."], []) := rfl

/-- C2 (amended): a required type name that does not resolve is reported only
by a printed message naming the offending type (not the category), after
which loading continues: the call still returns a mapping, and that mapping
silently omits the unresolved type. -/
theorem load_subtype_modules_skips_missing (req : List String)
    (pkg : String → Option PyModule) (attrs : List String) (m : String)
    (prints : List String) (dict : List (String × PyModule))
    (hpm : pkg m = none) (hm : m ∈ req)
    (h : load_subtype_modules req pkg attrs = .ok (prints, dict)) :
    ("ERROR! Subtype module " ++ m ++ " not found.") ∈ prints ∧
      ∀ p ∈ dict, p.1 ≠ m := by
  refine ⟨load_go_missing_print pkg attrs req [] [] prints dict m hpm hm h, ?_⟩
  intro p hp hpeq
  rcases load_go_resolved pkg attrs req [] [] prints dict h p hp with hin | hres
  · exact absurd hin (List.not_mem_nil p)
  · rw [hpeq, hpm] at hres
    exact Option.noConfusion hres

/-- A package resolving only the name "gen_spec_cap", to a module satisfying
the capacity contract. -/
def pkgOnlySpec : String → Option PyModule := fun s =>
  if s = "gen_spec_cap" then
    some ⟨"gen_spec_cap", ["capacity_rule", "capacity_cost_rule"]⟩
  else none

/-- C2 witness: loading ["gen_spec_cap", "gen_phantom"] against a package
that cannot resolve "gen_phantom" returns a mapping without "gen_phantom" and
a printed message naming it. -/
theorem load_subtype_modules_skips_missing_witness :
    ("ERROR! Subtype module gen_phantom not found.") ∈
        ["ERROR! Subtype module gen_phantom not found."] ∧
      ∀ p ∈ [("gen_spec_cap",
          PyModule.mk "gen_spec_cap" ["capacity_rule", "capacity_cost_rule"])],
        p.1 ≠ "gen_phantom" :=
  load_subtype_modules_skips_missing ["gen_spec_cap", "gen_phantom"]
    pkgOnlySpec ["capacity_rule", "capacity_cost_rule"] "gen_phantom"
    ["ERROR! Subtype module gen_phantom not found."]
    [("gen_spec_cap",
      PyModule.mk "gen_spec_cap" ["capacity_rule", "capacity_cost_rule"])]
    (by decide) (by decide) rfl

theorem load_go_missing_attr (pkg : String → Option PyModule)
    (attrs : List String) (req : List String) :
    ∀ (prints0 : List String) (dict0 : List (String × PyModule))
      (m : String) (md : PyModule) (a : String),
      m ∈ req → pkg m = some md → a ∈ attrs → a ∉ md.attrs →
      ∃ m2 md2 a2, m2 ∈ req ∧ pkg m2 = some md2 ∧ a2 ∈ attrs ∧
        a2 ∉ md2.attrs ∧
        load_go pkg attrs req prints0 dict0 =
          .error ("ERROR! No " ++ a2 ++ " function in subtype module "
            ++ md2.name ++ ".") := by
  induction req with
  | nil => intro _ _ m _ _ hm _ _ _; exact absurd hm (List.not_mem_nil m)
  | cons r rest ih =>
      intro prints0 dict0 m md a hm hpm ha hmiss
      cases hpr : pkg r with
      | none =>
          have hmr : m ∈ rest := by
            rcases List.mem_cons.mp hm with rfl | hmr
            · rw [hpm] at hpr; exact absurd hpr (by simp)
            · exact hmr
          rcases ih _ dict0 m md a hmr hpm ha hmiss with
            ⟨m2, md2, a2, hm2, hp2, ha2, hmiss2, heq⟩
          exact ⟨m2, md2, a2, List.mem_cons_of_mem r hm2, hp2, ha2, hmiss2,
            by rw [load_go, hpr]; exact heq⟩
      | some mdr =>
          cases hfa : attrs.find? (fun x => ! mdr.attrs.contains x) with
          | some a0 =>
              have ha0 : a0 ∈ attrs := List.mem_of_find?_eq_some hfa
              have hpa0 := List.find?_some hfa
              have hmiss0 : a0 ∉ mdr.attrs := by
                intro hin
                rw [Bool.not_eq_true', ← Bool.not_eq_true] at hpa0
                exact hpa0 ((contains_eq_true_iff_mem _ _).mpr hin)
              refine ⟨r, mdr, a0, List.mem_cons_self r rest, hpr, ha0, hmiss0, ?_⟩
              rw [load_go, hpr]
              simp only [hfa]
          | none =>
              have hall : ∀ x ∈ attrs, x ∈ mdr.attrs := by
                intro x hx
                have := List.find?_eq_none.mp hfa x hx
                rw [Bool.not_eq_true', Bool.not_eq_false] at this
                exact (contains_eq_true_iff_mem _ _).mp this
              have hmr : m ∈ rest := by
                rcases List.mem_cons.mp hm with rfl | hmr
                · rw [hpm] at hpr
                  have hmdeq : md = mdr := by injection hpr
                  exact absurd (hall a ha) (hmdeq ▸ hmiss)
                · exact hmr
              rcases ih prints0 (dict_insert dict0 r mdr) m md a hmr hpm ha
                hmiss with ⟨m2, md2, a2, hm2, hp2, ha2, hmiss2, heq⟩
              refine ⟨m2, md2, a2, List.mem_cons_of_mem r hm2, hp2, ha2,
                hmiss2, ?_⟩
              rw [load_go, hpr]
              simp only [hfa]
              exact heq

/-- C3: if any required type name resolves to a module lacking a required
attribute, `load_subtype_modules` raises (returns `.error`), so no mapping at
all is produced (all-or-nothing), and the exception message names the
offending module and the missing operation. -/
theorem load_subtype_modules_missing_attr_fails (req : List String)
    (pkg : String → Option PyModule) (attrs : List String) (m : String)
    (md : PyModule) (a : String) (hm : m ∈ req) (hpm : pkg m = some md)
    (ha : a ∈ attrs) (hmiss : a ∉ md.attrs) :
    ∃ m2 md2 a2, m2 ∈ req ∧ pkg m2 = some md2 ∧ a2 ∈ attrs ∧
      a2 ∉ md2.attrs ∧
      load_subtype_modules req pkg attrs =
        .error ("ERROR! No " ++ a2 ++ " function in subtype module "
          ++ md2.name ++ ".") :=
  load_go_missing_attr pkg attrs req [] [] m md a hm hpm ha hmiss

/-- A package resolving "gen_new_build" to a module that provides
capacity_rule but lacks capacity_cost_rule. -/
def pkgNoCost : String → Option PyModule := fun s =>
  if s = "gen_new_build" then some ⟨"gen_new_build", ["capacity_rule"]⟩
  else none

/-- C3 witness: requesting the capacity contract
["capacity_rule", "capacity_cost_rule"] against a module missing
"capacity_cost_rule" fails to load, naming the missing operation. -/
theorem load_subtype_modules_missing_attr_fails_witness :
    ∃ m2 md2 a2, m2 ∈ ["gen_new_build"] ∧ pkgNoCost m2 = some md2 ∧
      a2 ∈ ["capacity_rule", "capacity_cost_rule"] ∧ a2 ∉ md2.attrs ∧
      load_subtype_modules ["gen_new_build"] pkgNoCost
          ["capacity_rule", "capacity_cost_rule"] =
        .error ("ERROR! No " ++ a2 ++ " function in subtype module "
          ++ md2.name ++ ".") :=
  load_subtype_modules_missing_attr_fails ["gen_new_build"] pkgNoCost
    ["capacity_rule", "capacity_cost_rule"] "gen_new_build"
    ⟨"gen_new_build", ["capacity_rule"]⟩ "capacity_cost_rule"
    (by decide) (by decide) (by decide) (by decide)

/-- A required type name is loadable when it resolves in the package and the
resolved module has every attribute of the capability contract. -/
def module_ok (pkg : String → Option PyModule) (attrs : List String)
    (m : String) : Bool :=
  match pkg m with
  | none => false
  | some md => attrs.all fun a => md.attrs.contains a

theorem load_go_all_ok (pkg : String → Option PyModule) (attrs : List String)
    (req : List String) :
    ∀ (prints0 : List String) (dict0 : List (String × PyModule)),
      (∀ m ∈ req, module_ok pkg attrs m = true) →
      ∃ dict, load_go pkg attrs req prints0 dict0 = .ok (prints0, dict) ∧
        (∀ x, x ∈ dict.map Prod.fst ↔ x ∈ dict0.map Prod.fst ∨ x ∈ req) ∧
        ((dict0.map Prod.fst).Nodup → (dict.map Prod.fst).Nodup) := by
  induction req with
  | nil =>
      intro prints0 dict0 _
      exact ⟨dict0, rfl, fun x => by simp, fun h => h⟩
  | cons r rest ih =>
      intro prints0 dict0 hok
      have hr := hok r (List.mem_cons_self r rest)
      cases hpr : pkg r with
      | none => rw [module_ok, hpr] at hr; exact absurd hr (by simp)
      | some md =>
          rw [module_ok, hpr] at hr
          have hall : ∀ a ∈ attrs, a ∈ md.attrs := by
            intro a haa
            exact (contains_eq_true_iff_mem _ _).mp (List.all_eq_true.mp hr a haa)
          have hfa : attrs.find? (fun a => ! md.attrs.contains a) = none := by
            rw [List.find?_eq_none]
            intro a haa
            rw [Bool.not_eq_true', Bool.not_eq_false]
            exact (contains_eq_true_iff_mem _ _).mpr (hall a haa)
          rcases ih prints0 (dict_insert dict0 r md)
            (fun m hm => hok m (List.mem_cons_of_mem r hm)) with
            ⟨dict, heq, hmem, hnd⟩
          refine ⟨dict, ?_, ?_, ?_⟩
          · rw [load_go, hpr]
            simp only [hfa]
            exact heq
          · intro x
            rw [hmem x, dict_insert_mem_fst, List.mem_cons]
            tauto
          · exact fun h => hnd (dict_insert_nodup_fst dict0 r md h)

/-- C6: when every required type name resolves to a module satisfying the
required-attributes contract, `load_subtype_modules` succeeds with no printed
errors, and the returned mapping's keys are exactly the set of required type
names, each key occurring once (duplicate requests are loaded once).  The
embedding is a pure function of its inputs, so a second call with the same
required names, package and attributes is literally the same value: both
calls have identical key sets. -/
theorem load_subtype_modules_key_set (req : List String)
    (pkg : String → Option PyModule) (attrs : List String)
    (h : ∀ m ∈ req, module_ok pkg attrs m = true) :
    ∃ dict, load_subtype_modules req pkg attrs = .ok ([], dict) ∧
      load_subtype_modules req pkg attrs = .ok ([], dict) ∧
      (dict.map Prod.fst).Nodup ∧
      (dict.map Prod.fst).toFinset = req.toFinset := by
  rcases load_go_all_ok pkg attrs req [] [] h with ⟨dict, heq, hmem, hnd⟩
  refine ⟨dict, heq, heq, hnd List.nodup_nil, ?_⟩
  ext x
  rw [List.mem_toFinset, List.mem_toFinset, hmem x]
  simp

/-- A package resolving the two PRM type names used in the C6 witness, each
module carrying the elcc_eligible_capacity_rule attribute. -/
def pkgPrm : String → Option PyModule := fun s =>
  if s = "fully_deliverable" then
    some ⟨"fully_deliverable", ["elcc_eligible_capacity_rule"]⟩
  else if s = "energy_only_allowed" then
    some ⟨"energy_only_allowed", ["elcc_eligible_capacity_rule"]⟩
  else none

/-- C6 witness: loading a required-name list with a duplicate against a fully
resolving package yields a mapping whose key list is duplicate-free and whose
key set equals the set of required names. -/
theorem load_subtype_modules_key_set_witness :
    ∃ dict,
      load_subtype_modules
          ["fully_deliverable", "energy_only_allowed", "fully_deliverable"]
          pkgPrm ["elcc_eligible_capacity_rule"] = .ok ([], dict) ∧
      load_subtype_modules
          ["fully_deliverable", "energy_only_allowed", "fully_deliverable"]
          pkgPrm ["elcc_eligible_capacity_rule"] = .ok ([], dict) ∧
      (dict.map Prod.fst).Nodup ∧
      (dict.map Prod.fst).toFinset =
        (["fully_deliverable", "energy_only_allowed",
          "fully_deliverable"] : List String).toFinset :=
  load_subtype_modules_key_set
    ["fully_deliverable", "energy_only_allowed", "fully_deliverable"]
    pkgPrm ["elcc_eligible_capacity_rule"] (by decide)

/-! ## PRM cost groups (gridpath/project/reliability/prm/group_costs.py) -/

/-- A loaded PRM type module, reduced to the one operation dispatched in
`group_costs.py`: its `group_cost_rule(mod, group, p)` function, modelled as a
function of the group name and the period. -/
structure PrmModule where
  rule : String → Nat → Int

/-- Lookup `d[k]` on a Python dict modelled as an association list: a missing
key raises `KeyError(k)`, modelled as `Except.error` carrying the key. -/
def dict_get (d : List (String × PrmModule)) (k : String) :
    Except String PrmModule :=
  match d.find? (fun p => p.1 == k) with
  | some p => .ok p.2
  | none => .error ("KeyError: " ++ k)

/-- Embedding of `group_cost_rule(mod, group, p)` from `add_model_components`:
it reads the group's declared PRM type from `mod.group_prm_type` (modelled as
the function `group_prm_type`) and dispatches to
`imported_prm_modules[prm_type].group_cost_rule(mod, group, p)`. -/
def group_cost_rule (imported_prm_modules : List (String × PrmModule))
    (group_prm_type : String → String) (group : String) (p : Nat) :
    Except String Int :=
  match dict_get imported_prm_modules (group_prm_type group) with
  | .error e => .error e
  | .ok md => .ok (md.rule group p)

/-- C7: dispatching a group whose declared PRM type has no loaded module in
the dispatch mapping raises a `KeyError` naming the missing type; no default
value is returned. -/
theorem group_cost_rule_missing_type_fails
    (imported_prm_modules : List (String × PrmModule))
    (group_prm_type : String → String) (group : String) (p : Nat)
    (h : ∀ q ∈ imported_prm_modules, q.1 ≠ group_prm_type group) :
    group_cost_rule imported_prm_modules group_prm_type group p =
      .error ("KeyError: " ++ group_prm_type group) := by
  have hf : imported_prm_modules.find? (fun q => q.1 == group_prm_type group)
      = none := by
    rw [List.find?_eq_none]
    intro q hq
    simp only [beq_iff_eq]
    exact h q hq
  rw [group_cost_rule, dict_get, hf]

/-- The concrete dispatch mapping used in the C7 witness: only the
energy_only_allowed PRM type module is loaded. -/
def importedEnergyOnly : List (String × PrmModule) :=
  [("energy_only_allowed", ⟨fun _ _ => 0⟩)]

/-- The concrete group-to-type assignment used in the C7 witness: every group
declares the (unloaded) fully_deliverable PRM type. -/
def typeFullyDeliv : String → String := fun _ => "fully_deliverable"

/-- C7 witness: dispatching a group whose declared type,
fully_deliverable, is absent from the loaded mapping yields the KeyError
naming that type. -/
theorem group_cost_rule_missing_type_fails_witness :
    group_cost_rule importedEnergyOnly typeFullyDeliv "deliv_group" 2020 =
      .error ("KeyError: " ++ typeFullyDeliv "deliv_group") :=
  group_cost_rule_missing_type_fails importedEnergyOnly typeFullyDeliv
    "deliv_group" 2020 (by decide)

/-- Embedding of `group_prm_type_init(mod, group)`: scan the registered group
sets (`getattr(d, prm_cost_group_sets)`, the list `group_sets`) in
registration order; within each set (`getattr(mod, group_set)`, the list
`mod_set gs`) scan the elements and on the first one equal to `group` return
that set's declared type (`getattr(d, prm_cost_group_prm_type)[group_set]`,
the function `prm_type_of`).  Falling off the end of the loops returns
Python's implicit `None`. -/
def group_prm_type_init (group_sets : List String)
    (mod_set : String → List String) (prm_type_of : String → String)
    (group : String) : Option String :=
  match group_sets with
  | [] => none
  | gs :: rest =>
      if (mod_set gs).contains group then some (prm_type_of gs)
      else group_prm_type_init rest mod_set prm_type_of group

/-- C10: `group_prm_type_init` returns the declared type of the first
registered group set containing the group, and `none` (Python `None`, not an
error) when no registered set contains it: the scan is
`List.find?` over the registered sets in order, mapped through the per-set
declared type. -/
theorem group_prm_type_init_eq_find (group_sets : List String)
    (mod_set : String → List String) (prm_type_of : String → String)
    (group : String) :
    group_prm_type_init group_sets mod_set prm_type_of group =
      Option.map prm_type_of
        (group_sets.find? fun gs => (mod_set gs).contains group) := by
  induction group_sets with
  | nil => rfl
  | cons gs rest ih =>
      rw [group_prm_type_init]
      by_cases hc : (mod_set gs).contains group = true
      · have hfind : List.find? (fun t => (mod_set t).contains group) (gs :: rest)
            = some gs := List.find?_cons_of_pos rest hc
        rw [if_pos hc, hfind]
        rfl
      · have hfind : List.find? (fun t => (mod_set t).contains group) (gs :: rest)
            = List.find? (fun t => (mod_set t).contains group) rest :=
          List.find?_cons_of_neg rest hc
        rw [if_neg hc, ih, hfind]

/-! ## Results-import setup: `setup_results_import`
(gridpath/auxiliary/auxiliary.py, lines 277-325)

The function issues three SQL statements through `spin_on_database_lock`
(from `db.common_functions`, whose role here is only to execute the given
statement, retrying while the database is locked): first
`DELETE FROM table WHERE scenario_id = ? AND subproblem_id = ? AND
stage_id = ?`, then `DROP TABLE IF EXISTS temp_tablescenario`, then a
`CREATE TEMPORARY TABLE temp_tablescenario` with the persistent table's
structure.  The database is modelled as the rows of the persistent results
table plus the temp table's existence flag and rows; each statement is a
state transformer. -/

/-- A row of a results table, keyed by (scenario_id, subproblem_id,
stage_id). -/
structure ResultRow where
  scenario_id : Nat
  subproblem_id : Nat
  stage_id : Nat
  value : Int
deriving DecidableEq

/-- The state of the results store: the persistent table's rows and the
scratch temp table. -/
structure ResultsDB where
  final_rows : List ResultRow
  temp_exists : Bool
  temp_rows : List ResultRow
deriving DecidableEq

/-- The WHERE clause of the first statement of `setup_results_import`. -/
def matches_key (sid sub st : Nat) (r : ResultRow) : Bool :=
  r.scenario_id == sid && r.subproblem_id == sub && r.stage_id == st

/-- Effect of the first statement of `setup_results_import`:
`DELETE FROM table WHERE scenario_id = ? AND subproblem_id = ? AND
stage_id = ?`, executed before anything is staged. -/
def delete_prior (sid sub st : Nat) (db : ResultsDB) : ResultsDB :=
  { db with final_rows := db.final_rows.filter fun r => ! matches_key sid sub st r }

/-- Effect of the second statement: `DROP TABLE IF EXISTS temp_...`. -/
def drop_temp_table (db : ResultsDB) : ResultsDB :=
  { db with temp_exists := false, temp_rows := [] }

/-- Effect of the third statement: `CREATE TEMPORARY TABLE temp_...` with the
persistent table's structure (empty). -/
def create_temp_table (db : ResultsDB) : ResultsDB :=
  { db with temp_exists := true, temp_rows := [] }

/-- Embedding of `setup_results_import(conn, cursor, table, scenario_id,
subproblem, stage)`: the three statements in source order: delete prior
results first, then drop and re-create the scratch temp table. -/
def setup_results_import (sid sub st : Nat) (db : ResultsDB) : ResultsDB :=
  create_temp_table (drop_temp_table (delete_prior sid sub st db))

/-- A results table holding one previously committed row for
(scenario 1, subproblem 1, stage 1), with no temp table. -/
def dbPrior : ResultsDB :=
  { final_rows := [⟨1, 1, 1, 42⟩], temp_exists := false, temp_rows := [] }

/-- C5 counterexample: `setup_results_import` deletes the previously
committed rows for the key as its very first statement, before any scratch
area exists and before any new results are staged: after that first
statement, the prior committed row is gone from the final table while the
temp table still does not exist, so an import that fails or is terminated at
this intermediate point has already lost the prior results. -/
theorem setup_results_import_loses_prior_rows :
    dbPrior.final_rows ≠ [] ∧
    (delete_prior 1 1 1 dbPrior).final_rows = [] ∧
    (delete_prior 1 1 1 dbPrior).temp_exists = false ∧
    (setup_results_import 1 1 1 dbPrior).final_rows = [] := by decide

/-- C5 (amended): `setup_results_import` is delete-then-stage, not
stage-then-commit: it first removes every previously committed row for the
exact (scenario, subproblem, stage) key from the final table (leaving rows
under other keys untouched) and only afterwards re-creates the empty scratch
temp table into which new results will be staged. -/
theorem setup_results_import_spec (sid sub st : Nat) (db : ResultsDB) :
    (delete_prior sid sub st db).final_rows =
      db.final_rows.filter (fun r => ! matches_key sid sub st r) ∧
    (setup_results_import sid sub st db).final_rows =
      db.final_rows.filter (fun r => ! matches_key sid sub st r) ∧
    (setup_results_import sid sub st db).temp_exists = true ∧
    (setup_results_import sid sub st db).temp_rows = [] :=
  ⟨rfl, rfl, rfl, rfl⟩

end GridPath
